import Mathlib

/-!
Verification of the sprite-build pipeline of `svg-icons-cli` (src/index.js).

The pipeline is embedded shallowly:
* raw SVG text is represented by its parsed node tree (`SvgNode`), since the
  external HTML parser is opaque and never throws; `querySelector("svg")`
  becomes a pre-order search for the first element with tag `svg`;
* the filesystem visible to the build (the output files) is an association
  list from path to content plus a set of created directories;
* `JSON.stringify` on strings, `Array.prototype.join`, `String.prototype.trim`
  and `String.prototype.includes` are reproduced at the character level.
-/

/-- Whitespace test used by the model of `String.prototype.trim`. -/
def jsWhitespace (c : Char) : Bool :=
  c = ' ' || c = '\t' || c = '\n' || c = '\r' || c = '\x0c' || c = '\x0b'

/-- Model of JavaScript `String.prototype.trim`: drop leading and trailing
whitespace. -/
def jsTrim (s : String) : String :=
  ⟨((s.data.dropWhile jsWhitespace).reverse.dropWhile jsWhitespace).reverse⟩

/-- Model of JavaScript `String.prototype.includes`: contiguous substring
test. -/
def strIncludes (hay needle : String) : Bool :=
  decide (needle.data <:+: hay.data)

/-- Model of JavaScript `Array.prototype.join(sep)`. -/
def joinWith (sep : String) : List String → String
  | [] => ""
  | [s] => s
  | s :: rest => s ++ sep ++ joinWith sep rest

/-- Lower-case hexadecimal digit, as produced by `JSON.stringify` unicode
escapes. -/
def hexDigit (n : Nat) : Char :=
  if n < 10 then Char.ofNat (48 + n) else Char.ofNat (87 + n)

/-- Escape of a single character inside a JSON string literal
(ECMA-404 / `QuoteJSONString`). -/
def escapeJsonChar (c : Char) : List Char :=
  if c = '"' then ['\\', '"']
  else if c = '\\' then ['\\', '\\']
  else if c = '\x08' then ['\\', 'b']
  else if c = '\x0c' then ['\\', 'f']
  else if c = '\n' then ['\\', 'n']
  else if c = '\r' then ['\\', 'r']
  else if c = '\t' then ['\\', 't']
  else if c.toNat < 0x20 then
    ['\\', 'u', '0', '0', hexDigit (c.toNat / 16), hexDigit (c.toNat % 16)]
  else [c]

/-- Model of `JSON.stringify` applied to a string. -/
def jsonStringify (s : String) : String :=
  ⟨'"' :: (s.data.flatMap escapeJsonChar) ++ ['"']⟩

/-- `iconName` from src/index.js: `file.replace(/\.svg$/, "")` — remove one
trailing `.svg` suffix when present. -/
def iconName (file : String) : String :=
  if ".svg".data.isSuffixOf file.data then
    ⟨file.data.take (file.data.length - 4)⟩
  else file

/-- Parsed markup node, the output of the external `node-html-parser`. -/
inductive SvgNode where
  | text (s : String)
  | element (tag : String) (attrs : List (String × String)) (children : List SvgNode)

/-- Attribute rendering of `node-html-parser` after `setAttribute` has rebuilt
`rawAttrs`: each attribute appears as ` key=JSON.stringify(value)`. -/
def renderAttrs : List (String × String) → String
  | [] => ""
  | (k, v) :: rest => " " ++ k ++ "=" ++ jsonStringify v ++ renderAttrs rest

mutual

/-- Serialization (`toString`) of one node. -/
def renderNode : SvgNode → String
  | .text s => s
  | .element tag attrs children =>
      "<" ++ tag ++ renderAttrs attrs ++ ">" ++ renderNodes children ++ "</" ++ tag ++ ">"

/-- Serialization of a node list (`innerHTML`). -/
def renderNodes : List SvgNode → String
  | [] => ""
  | n :: rest => renderNode n ++ renderNodes rest

end

mutual

/-- `querySelector("svg")` on one node: the node itself if its tag is `svg`,
otherwise the first match among its descendants, pre-order. -/
def findSvg : SvgNode → Option (List (String × String) × List SvgNode)
  | .text _ => none
  | .element tag attrs children =>
      if tag == "svg" then some (attrs, children) else findSvgIn children

/-- `querySelector("svg")` on a node list, pre-order. -/
def findSvgIn : List SvgNode → Option (List (String × String) × List SvgNode)
  | [] => none
  | n :: rest =>
      match findSvg n with
      | some r => some r
      | none => findSvgIn rest

end

/-- `setAttribute`: update the value in place when the key exists, otherwise
append the new attribute. -/
def setAttr (attrs : List (String × String)) (k v : String) : List (String × String) :=
  if attrs.any (fun p => p.1 == k) then
    attrs.map (fun p => if p.1 == k then (k, v) else p)
  else attrs ++ [(k, v)]

/-- `removeAttribute`: drop every attribute with the given key. -/
def removeAttr (attrs : List (String × String)) (k : String) : List (String × String) :=
  attrs.filter (fun p => p.1 != k)

/-- The five attributes stripped from the root element of every input SVG. -/
def removedAttrNames : List String :=
  ["xmlns", "xmlns:xlink", "version", "width", "height"]

/-- Attribute transformation applied to the located `svg` element, in source
order: set `id`, then remove the five namespace/sizing attributes. -/
def transformAttrs (attrs : List (String × String)) (name : String) :
    List (String × String) :=
  removeAttr (removeAttr (removeAttr (removeAttr (removeAttr
    (setAttr attrs "id" name) "xmlns") "xmlns:xlink") "version") "width") "height"

/-- The per-file body of `generateSvgSprite`: locate the root `svg` element
(throwing — `none` — when absent), rename it to `symbol`, set `id` to the
icon name, strip the five attributes, serialize and trim. -/
def normalizeSymbol (file : String) (doc : List SvgNode) : Option String :=
  match findSvgIn doc with
  | none => none
  | some (attrs, children) =>
      some (jsTrim (renderNode (.element "symbol" (transformAttrs attrs (iconName file)) children)))

def xmlDeclLine : String := "<?xml version=\"1.0\" encoding=\"UTF-8\"?>"

def generatedCommentLine : String :=
  "<!-- This file is generated by npm run build:icons -->"

def svgOpenLine : String :=
  "<svg xmlns=\"http://www.w3.org/2000/svg\" xmlns:xlink=\"http://www.w3.org/1999/xlink\" width=\"0\" height=\"0\">"

/-- Document assembly of `generateSvgSprite`: the fixed header lines, the
symbols in input order, the closing tags and a trailing newline, joined by
`"\n"`. -/
def assembleSprite (symbols : List String) : String :=
  joinWith "\n"
    ([xmlDeclLine, generatedCommentLine, svgOpenLine, "<defs>"]
      ++ symbols ++ ["</defs>", "</svg>", ""])

/-- The build environment: everything `build` consumes that is not one of the
output files. `readParse` is the composition of reading an input file and the
(opaque, total) external parser; `optimizeFn` is the opaque SVGO transform
with its loaded configuration. -/
structure BuildEnv where
  files : List String
  readParse : String → List SvgNode
  outputDir : String
  spriteDir : String
  shouldOptimize : Bool
  optimizeFn : String → String

/-- The sprite document `generateSvgSprite` computes before writing: `none`
when some input file has no root `svg` element (the thrown error rejects the
whole `Promise.all`). -/
def spriteContent (env : BuildEnv) : Option String :=
  (env.files.mapM (fun f => normalizeSymbol f (env.readParse f))).map
    (fun symbols =>
      let out := assembleSprite symbols
      if env.shouldOptimize then env.optimizeFn out else out)

/-- The output-file filesystem: contents by path, plus created directories. -/
structure FS where
  entries : List (String × String)
  dirs : List String
deriving DecidableEq

/-- `fs.readFile`: the stored content, if any. -/
def FS.read (fs : FS) (p : String) : Option String :=
  (fs.entries.find? (fun e => e.1 == p)).map (·.2)

/-- `fs.readFile(..).catch(() => "")`: a missing file reads as the empty
string. -/
def FS.readOrEmpty (fs : FS) (p : String) : String :=
  (fs.read p).getD ""

def FS.writeEntries : List (String × String) → String → String → List (String × String)
  | [], p, c => [(p, c)]
  | e :: rest, p, c => if e.1 == p then (p, c) :: rest else e :: FS.writeEntries rest p c

/-- `fs.writeFile`. -/
def FS.write (fs : FS) (p c : String) : FS :=
  { fs with entries := FS.writeEntries fs.entries p c }

/-- `mkdirSync(dir, { recursive: true })`. -/
def FS.mkdir (fs : FS) (d : String) : FS :=
  if d ∈ fs.dirs then fs else { fs with dirs := d :: fs.dirs }

/-- `writeIfChanged` from src/index.js: read the current content (missing file
is the empty string), skip the write when it equals the new content, report
whether a write happened. -/
def writeIfChanged (fs : FS) (filepath newContent : String) : Bool × FS :=
  if FS.readOrEmpty fs filepath = newContent then (false, fs)
  else (true, fs.write filepath newContent)

/-- `path.join`, on the already-resolved directory strings the build uses. -/
def pathJoin (a b : String) : String := a ++ "/" ++ b

def spritePath (env : BuildEnv) : String := pathJoin env.spriteDir "sprite.svg"

def typesPath (env : BuildEnv) : String := pathJoin env.outputDir "name.d.ts"

def readmePath (env : BuildEnv) : String := pathJoin env.outputDir "README.md"

/-- `generateSvgSprite`: compute the document and hand it to the idempotent
writer. -/
def generateSvgSprite (env : BuildEnv) (outputPath : String) (fs : FS) :
    Option (Bool × FS) :=
  (spriteContent env).map (fun out => writeIfChanged fs outputPath out)

/-- The manifest (`name.d.ts`) content, with the exact template-literal
whitespace of the source. -/
def typeOutputContent (iconNames : List String) : String :=
  "// This file is generated by npm run build:icons\n  \n  export type IconName =\n  \t| "
    ++ joinWith "\n\t| " (iconNames.map jsonStringify) ++ ";\n  "

/-- The static README content written next to the manifest. -/
def readmeContent : String :=
  "# Icons\n  \n  This directory contains SVG icons that are used by the app.\n  \n  Everything in this directory is generated by running `icons build`.\n  "

/-- The up-to-date short-circuit: every icon name must occur in the existing
sprite as the unquoted substring `id=<name>` and in the existing manifest as
the quoted literal `"<name>"`. -/
def upToDateCheck (env : BuildEnv) (fs : FS) : Bool :=
  ((env.files.map iconName).all fun name =>
      strIncludes (fs.readOrEmpty (spritePath env)) ("id=" ++ name))
    && ((env.files.map iconName).all fun name =>
      strIncludes (fs.readOrEmpty (typesPath env)) ("\"" ++ name ++ "\""))

/-- Outcome of one `build` invocation. -/
inductive BuildResult where
  /-- `cancel` + `process.exit(1)`: no `.svg` files were discovered. -/
  | inputNotFound
  /-- Early `return` from the up-to-date short-circuit. -/
  | upToDate
  /-- `generateSvgSprite` threw `No SVG element found`. -/
  | malformedSvg
  /-- The three writers ran; each flag reports whether that file was written. -/
  | built (spriteChanged typesChanged readmeChanged : Bool)
deriving DecidableEq

/-- The `build` command (src/index.js lines 163–228) after configuration has
been resolved: discovery result and parser are supplied by `env`, the output
files live in `fs`. -/
def build (env : BuildEnv) (fs : FS) : BuildResult × FS :=
  if env.files.isEmpty then (BuildResult.inputNotFound, fs)
  else
    let fs1 := fs.mkdir env.outputDir
    if upToDateCheck env fs1 then (BuildResult.upToDate, fs1)
    else
      match generateSvgSprite env (spritePath env) fs1 with
      | none => (BuildResult.malformedSvg, fs1)
      | some sw =>
        let tw := writeIfChanged sw.2 (typesPath env) (typeOutputContent (env.files.map iconName))
        let rw := writeIfChanged tw.2 (readmePath env) readmeContent
        (BuildResult.built sw.1 tw.1 rw.1, rw.2)

/-- Concrete evaluation of the normalizer on a small parsed SVG. -/
theorem normalizeSymbol_example :
    normalizeSymbol "camera.svg"
      [SvgNode.element "svg" [("xmlns", "x"), ("viewBox", "0 0 24 24")]
        [SvgNode.element "path" [("d", "M0 0")] []]]
      = some "<symbol viewBox=\"0 0 24 24\" id=\"camera\"><path d=\"M0 0\"></path></symbol>" := by
  decide

/-! ## Filesystem lemmas -/

theorem find?_writeEntries_self (l : List (String × String)) (p c : String) :
    (FS.writeEntries l p c).find? (fun e => e.1 == p) = some (p, c) := by
  induction l with
  | nil => simp [FS.writeEntries]
  | cons e rest ih =>
    by_cases h : e.1 = p
    · simp [FS.writeEntries, h]
    · simp only [FS.writeEntries, beq_iff_eq, if_neg h]
      rw [List.find?_cons_of_neg _ (by simpa using h)]
      exact ih

theorem find?_writeEntries_ne (l : List (String × String)) (p c q : String)
    (h : q ≠ p) :
    (FS.writeEntries l p c).find? (fun e => e.1 == q)
      = l.find? (fun e => e.1 == q) := by
  induction l with
  | nil => simp [FS.writeEntries, Ne.symm h]
  | cons e rest ih =>
    by_cases he : e.1 = p
    · simp only [FS.writeEntries, beq_iff_eq, if_pos he]
      rw [List.find?_cons_of_neg _ (by simpa using Ne.symm h),
        List.find?_cons_of_neg _ (by simp [he, Ne.symm h])]
    · simp only [FS.writeEntries, beq_iff_eq, if_neg he]
      by_cases hq : e.1 = q
      · rw [List.find?_cons_of_pos _ (by simpa using hq),
          List.find?_cons_of_pos _ (by simpa using hq)]
      · rw [List.find?_cons_of_neg _ (by simpa using hq),
          List.find?_cons_of_neg _ (by simpa using hq)]
        exact ih

theorem FS.read_write_self (fs : FS) (p c : String) :
    (fs.write p c).read p = some c := by
  simp [FS.read, FS.write, find?_writeEntries_self]

theorem FS.readOrEmpty_write_self (fs : FS) (p c : String) :
    (fs.write p c).readOrEmpty p = c := by
  simp [FS.readOrEmpty, FS.read_write_self]

theorem FS.read_write_ne (fs : FS) (p c q : String) (h : q ≠ p) :
    (fs.write p c).read q = fs.read q := by
  simp [FS.read, FS.write, find?_writeEntries_ne _ _ _ _ h]

theorem FS.readOrEmpty_write_ne (fs : FS) (p c q : String) (h : q ≠ p) :
    (fs.write p c).readOrEmpty q = fs.readOrEmpty q := by
  simp [FS.readOrEmpty, FS.read_write_ne _ _ _ _ h]

theorem FS.entries_mkdir (fs : FS) (d : String) :
    (fs.mkdir d).entries = fs.entries := by
  unfold FS.mkdir; split <;> rfl

theorem FS.read_mkdir (fs : FS) (d p : String) :
    (fs.mkdir d).read p = fs.read p := by
  unfold FS.read
  rw [FS.entries_mkdir]

theorem FS.readOrEmpty_mkdir (fs : FS) (d p : String) :
    (fs.mkdir d).readOrEmpty p = fs.readOrEmpty p := by
  unfold FS.readOrEmpty
  rw [FS.read_mkdir]

theorem FS.dirs_write (fs : FS) (p c : String) : (fs.write p c).dirs = fs.dirs := rfl

theorem FS.mem_dirs_mkdir (fs : FS) (d : String) : d ∈ (fs.mkdir d).dirs := by
  unfold FS.mkdir
  split
  · assumption
  · exact List.mem_cons_self _ _

theorem FS.mkdir_of_mem (fs : FS) (d : String) (h : d ∈ fs.dirs) :
    fs.mkdir d = fs := by
  simp [FS.mkdir, h]

theorem FS.mkdir_mkdir (fs : FS) (d : String) :
    (fs.mkdir d).mkdir d = fs.mkdir d :=
  FS.mkdir_of_mem _ _ (FS.mem_dirs_mkdir fs d)

/-! ## writeIfChanged lemmas -/

theorem writeIfChanged_of_eq (fs : FS) (p c : String) (h : fs.readOrEmpty p = c) :
    writeIfChanged fs p c = (false, fs) := by
  simp [writeIfChanged, h]

theorem writeIfChanged_readOrEmpty_self (fs : FS) (p c : String) :
    (writeIfChanged fs p c).2.readOrEmpty p = c := by
  unfold writeIfChanged
  split
  · assumption
  · exact FS.readOrEmpty_write_self fs p c

theorem writeIfChanged_readOrEmpty_ne (fs : FS) (p c q : String) (h : q ≠ p) :
    (writeIfChanged fs p c).2.readOrEmpty q = fs.readOrEmpty q := by
  unfold writeIfChanged
  split
  · rfl
  · exact FS.readOrEmpty_write_ne fs p c q h

theorem writeIfChanged_dirs (fs : FS) (p c : String) :
    (writeIfChanged fs p c).2.dirs = fs.dirs := by
  unfold writeIfChanged
  split <;> rfl

/-! ## Output paths are pairwise distinct -/

theorem pathJoin_ne (a b s t : String) (h : s.data.getLast? ≠ t.data.getLast?)
    (hs : s.data ≠ []) (ht : t.data ≠ []) : pathJoin a s ≠ pathJoin b t := by
  intro e
  apply h
  have h1 : (pathJoin a s).data.getLast? = s.data.getLast? := by
    rw [pathJoin, String.data_append]
    exact List.getLast?_append_of_ne_nil _ hs
  have h2 : (pathJoin b t).data.getLast? = t.data.getLast? := by
    rw [pathJoin, String.data_append]
    exact List.getLast?_append_of_ne_nil _ ht
  rw [← h1, ← h2, e]

theorem typesPath_ne_spritePath (env : BuildEnv) : typesPath env ≠ spritePath env :=
  pathJoin_ne _ _ _ _ (by decide) (by decide) (by decide)

theorem readmePath_ne_spritePath (env : BuildEnv) : readmePath env ≠ spritePath env :=
  pathJoin_ne _ _ _ _ (by decide) (by decide) (by decide)

theorem readmePath_ne_typesPath (env : BuildEnv) : readmePath env ≠ typesPath env :=
  pathJoin_ne _ _ _ _ (by decide) (by decide) (by decide)

/-! ## Case characterizations of `build` -/

theorem build_of_empty (env : BuildEnv) (fs : FS) (h : env.files = []) :
    build env fs = (BuildResult.inputNotFound, fs) := by
  simp [build, h]

theorem build_of_check (env : BuildEnv) (fs : FS) (h0 : env.files ≠ [])
    (h1 : upToDateCheck env (fs.mkdir env.outputDir) = true) :
    build env fs = (BuildResult.upToDate, fs.mkdir env.outputDir) := by
  rw [build, if_neg (by simpa [List.isEmpty_iff] using h0)]
  simp [h1]

theorem build_of_malformed (env : BuildEnv) (fs : FS) (h0 : env.files ≠ [])
    (h1 : upToDateCheck env (fs.mkdir env.outputDir) = false)
    (h2 : spriteContent env = none) :
    build env fs = (BuildResult.malformedSvg, fs.mkdir env.outputDir) := by
  rw [build, if_neg (by simpa [List.isEmpty_iff] using h0)]
  simp [h1, generateSvgSprite, h2]

theorem build_of_generate (env : BuildEnv) (fs : FS) (out : String)
    (h0 : env.files ≠ [])
    (h1 : upToDateCheck env (fs.mkdir env.outputDir) = false)
    (h2 : spriteContent env = some out) :
    build env fs =
      (BuildResult.built
          (writeIfChanged (fs.mkdir env.outputDir) (spritePath env) out).1
          (writeIfChanged (writeIfChanged (fs.mkdir env.outputDir) (spritePath env) out).2
            (typesPath env) (typeOutputContent (env.files.map iconName))).1
          (writeIfChanged
            (writeIfChanged (writeIfChanged (fs.mkdir env.outputDir) (spritePath env) out).2
              (typesPath env) (typeOutputContent (env.files.map iconName))).2
            (readmePath env) readmeContent).1,
        (writeIfChanged
          (writeIfChanged (writeIfChanged (fs.mkdir env.outputDir) (spritePath env) out).2
            (typesPath env) (typeOutputContent (env.files.map iconName))).2
          (readmePath env) readmeContent).2) := by
  rw [build, if_neg (by simpa [List.isEmpty_iff] using h0)]
  simp [h1, generateSvgSprite, h2]

/-! ## Claims C9, C10, C4, C8 -/

/-- **C9**: `writeIfChanged` reads the existing file treating a missing file
as the empty string, compares byte-for-byte, writes only on a difference, and
returns `true` exactly when a write occurred, leaving the filesystem
unchanged otherwise; after it runs the target holds the new content. -/
theorem writeIfChanged_contract (fs : FS) (p c : String) :
    (fs.read p = none → fs.readOrEmpty p = "")
    ∧ (∀ s, fs.read p = some s → fs.readOrEmpty p = s)
    ∧ ((writeIfChanged fs p c).1 = true ↔ fs.readOrEmpty p ≠ c)
    ∧ ((writeIfChanged fs p c).1 = false → (writeIfChanged fs p c).2 = fs)
    ∧ ((writeIfChanged fs p c).1 = true → (writeIfChanged fs p c).2 = fs.write p c)
    ∧ (writeIfChanged fs p c).2.readOrEmpty p = c := by
  refine ⟨?_, ?_, ?_, ?_, ?_, writeIfChanged_readOrEmpty_self fs p c⟩
  · intro h; simp [FS.readOrEmpty, h]
  · intro s h; simp [FS.readOrEmpty, h]
  · by_cases h : fs.readOrEmpty p = c <;> simp [writeIfChanged, h]
  · by_cases h : fs.readOrEmpty p = c <;> simp [writeIfChanged, h]
  · by_cases h : fs.readOrEmpty p = c <;> simp [writeIfChanged, h]

def fs9 : FS := ⟨[("a", "old")], []⟩

theorem writeIfChanged_contract_witness :
    (fs9.read "a" = none → fs9.readOrEmpty "a" = "")
    ∧ (∀ s, fs9.read "a" = some s → fs9.readOrEmpty "a" = s)
    ∧ ((writeIfChanged fs9 "a" "new").1 = true ↔ fs9.readOrEmpty "a" ≠ "new")
    ∧ ((writeIfChanged fs9 "a" "new").1 = false → (writeIfChanged fs9 "a" "new").2 = fs9)
    ∧ ((writeIfChanged fs9 "a" "new").1 = true →
        (writeIfChanged fs9 "a" "new").2 = fs9.write "a" "new")
    ∧ (writeIfChanged fs9 "a" "new").2.readOrEmpty "a" = "new" :=
  writeIfChanged_contract fs9 "a" "new"

/-- **C10**: with an empty discovered file list the build reports the
input-not-found error and exits before creating the output directory or
touching any output file: the filesystem is returned untouched. -/
theorem empty_input_aborts (env : BuildEnv) (fs : FS) (h : env.files = []) :
    build env fs = (BuildResult.inputNotFound, fs) :=
  build_of_empty env fs h

def env10 : BuildEnv := ⟨[], fun _ => [], "out", "out", false, id⟩

def fs10 : FS := ⟨[("out/sprite.svg", "stale")], ["elsewhere"]⟩

theorem empty_input_aborts_witness :
    build env10 fs10 = (BuildResult.inputNotFound, fs10) :=
  empty_input_aborts env10 fs10 rfl

/-- Shared helper: when both substring checks pass for every icon name, the
build short-circuits after `mkdir` with zero writes. -/
theorem build_upToDate_of_checks (env : BuildEnv) (fs : FS) (h0 : env.files ≠ [])
    (hs : ∀ name ∈ env.files.map iconName,
      strIncludes (fs.readOrEmpty (spritePath env)) ("id=" ++ name) = true)
    (ht : ∀ name ∈ env.files.map iconName,
      strIncludes (fs.readOrEmpty (typesPath env)) ("\"" ++ name ++ "\"") = true) :
    build env fs = (BuildResult.upToDate, fs.mkdir env.outputDir) := by
  apply build_of_check env fs h0
  unfold upToDateCheck
  rw [FS.readOrEmpty_mkdir, FS.readOrEmpty_mkdir, Bool.and_eq_true]
  exact ⟨List.all_eq_true.mpr hs, List.all_eq_true.mpr ht⟩

/-- **C4**: when, for every icon name of the current file list, the existing
sprite contains `id=<name>` and the existing manifest contains `"<name>"`,
the build returns up-to-date with zero writes, and its outcome does not
depend on the SVG reader/parser at all (zero SVG parsing). -/
theorem upToDate_short_circuit (env : BuildEnv) (fs : FS) (h0 : env.files ≠ [])
    (hs : ∀ name ∈ env.files.map iconName,
      strIncludes (fs.readOrEmpty (spritePath env)) ("id=" ++ name) = true)
    (ht : ∀ name ∈ env.files.map iconName,
      strIncludes (fs.readOrEmpty (typesPath env)) ("\"" ++ name ++ "\"") = true)
    (rp : String → List SvgNode) :
    build { env with readParse := rp } fs = (BuildResult.upToDate, fs.mkdir env.outputDir)
    ∧ (fs.mkdir env.outputDir).entries = fs.entries :=
  ⟨build_upToDate_of_checks { env with readParse := rp } fs h0 hs ht,
    FS.entries_mkdir fs env.outputDir⟩

def env4 : BuildEnv := ⟨["a.svg"], fun _ => [], "out", "out", false, id⟩

def fs4 : FS := ⟨[("out/sprite.svg", "id=a"), ("out/name.d.ts", "x\"a\"y")], []⟩

theorem upToDate_short_circuit_witness :
    build { env4 with readParse := fun _ => [SvgNode.text "z"] } fs4
        = (BuildResult.upToDate, fs4.mkdir env4.outputDir)
    ∧ (fs4.mkdir env4.outputDir).entries = fs4.entries :=
  upToDate_short_circuit env4 fs4 (by decide) (by decide) (by decide)
    (fun _ => [SvgNode.text "z"])

/-- **C8**: an icon removed from the input set never triggers a rebuild: even
when the existing sprite still contains the removed name's symbol, the check
quantifies only over the names of the current file list, so when those names
all pass the substring checks the build reports up to date with zero
writes. -/
theorem removed_icon_no_rebuild (env : BuildEnv) (fs : FS) (g : String)
    (h0 : env.files ≠ []) (_hg : g ∉ env.files)
    (_hstale : strIncludes (fs.readOrEmpty (spritePath env))
      ("<symbol id=" ++ jsonStringify (iconName g)) = true)
    (hs : ∀ name ∈ env.files.map iconName,
      strIncludes (fs.readOrEmpty (spritePath env)) ("id=" ++ name) = true)
    (ht : ∀ name ∈ env.files.map iconName,
      strIncludes (fs.readOrEmpty (typesPath env)) ("\"" ++ name ++ "\"") = true) :
    build env fs = (BuildResult.upToDate, fs.mkdir env.outputDir)
    ∧ (fs.mkdir env.outputDir).entries = fs.entries :=
  ⟨build_upToDate_of_checks env fs h0 hs ht, FS.entries_mkdir fs env.outputDir⟩

def env8 : BuildEnv := ⟨["a.svg"], fun _ => [], "out", "out", false, id⟩

def fs8 : FS :=
  ⟨[("out/sprite.svg", "id=a <symbol id=\"b\"></symbol>"),
    ("out/name.d.ts", "\"a\"")], []⟩

theorem removed_icon_no_rebuild_witness :
    build env8 fs8 = (BuildResult.upToDate, fs8.mkdir env8.outputDir)
    ∧ (fs8.mkdir env8.outputDir).entries = fs8.entries :=
  removed_icon_no_rebuild env8 fs8 "b.svg" (by decide) (by decide) (by decide)
    (by decide) (by decide)

/-! ## Claim C3: a malformed SVG aborts the whole build -/

theorem mapM_eq_none_of_mem {α β : Type} (f : α → Option β) (x : α)
    (hf : f x = none) : ∀ (l : List α), x ∈ l → l.mapM f = none := by
  intro l
  induction l with
  | nil => intro hx; cases hx
  | cons a rest ih =>
    intro hx
    rw [List.mapM_cons]
    rcases List.mem_cons.mp hx with h | h
    · rw [← h, hf]; rfl
    · cases hfa : f a with
      | none => rfl
      | some b =>
        show ((rest.mapM f) >>= fun bs => pure (b :: bs)) = none
        rw [ih h]
        rfl

/-- **C3**: if any discovered input file has no root `svg` element, the sprite
generation throws, so a build that reaches it aborts with the malformed-SVG
error before any writer runs: no output file is written or modified, even when
every other input is well-formed. -/
theorem malformed_svg_aborts (env : BuildEnv) (fs : FS) (g : String)
    (hg : g ∈ env.files) (hbad : findSvgIn (env.readParse g) = none)
    (hchk : upToDateCheck env (fs.mkdir env.outputDir) = false) :
    build env fs = (BuildResult.malformedSvg, fs.mkdir env.outputDir)
    ∧ (fs.mkdir env.outputDir).entries = fs.entries := by
  have h0 : env.files ≠ [] := List.ne_nil_of_mem hg
  have hnone : spriteContent env = none := by
    unfold spriteContent
    rw [mapM_eq_none_of_mem _ g (by simp [normalizeSymbol, hbad]) env.files hg]
    rfl
  exact ⟨build_of_malformed env fs h0 hchk hnone, FS.entries_mkdir _ _⟩

def env3 : BuildEnv :=
  ⟨["a.svg", "bad.svg"],
    fun f => if f == "bad.svg" then [SvgNode.text "no root here"]
      else [SvgNode.element "svg" [] []],
    "out", "out", false, id⟩

def fs3 : FS := ⟨[("out/sprite.svg", "old sprite"), ("out/name.d.ts", "old types")], []⟩

theorem malformed_svg_aborts_witness :
    build env3 fs3 = (BuildResult.malformedSvg, fs3.mkdir env3.outputDir)
    ∧ (fs3.mkdir env3.outputDir).entries = fs3.entries :=
  malformed_svg_aborts env3 fs3 "bad.svg" (by decide) rfl (by decide)

/-! ## Claim C2: the symbol normalizer -/

theorem mem_removeAttr (a : List (String × String)) (r k v : String) :
    (k, v) ∈ removeAttr a r ↔ (k, v) ∈ a ∧ k ≠ r := by
  simp [removeAttr, List.mem_filter, bne_iff_ne]

theorem mem_setAttr_self (attrs : List (String × String)) (k v : String) :
    (k, v) ∈ setAttr attrs k v := by
  unfold setAttr
  split
  case isTrue h =>
    obtain ⟨p, hp, hpk⟩ := List.any_eq_true.mp h
    have := List.mem_map_of_mem (fun p => if p.1 == k then (k, v) else p) hp
    simpa [hpk] using this
  case isFalse h =>
    exact List.mem_append_right _ (List.mem_singleton.mpr rfl)

theorem mem_setAttr_elim (attrs : List (String × String)) (k v x w : String)
    (h : (x, w) ∈ setAttr attrs k v) : (x, w) ∈ attrs ∨ (x, w) = (k, v) := by
  unfold setAttr at h
  split at h
  · obtain ⟨p, hp, hpe⟩ := List.mem_map.mp h
    by_cases hpk : (p.1 == k) = true
    · right; rw [if_pos hpk] at hpe; exact hpe.symm
    · left; rw [if_neg hpk] at hpe; rwa [hpe] at hp
  · rcases List.mem_append.mp h with h | h
    · exact Or.inl h
    · exact Or.inr (List.mem_singleton.mp h)

theorem mem_setAttr_of_mem_ne (attrs : List (String × String)) (k v x w : String)
    (hx : (x, w) ∈ attrs) (hne : x ≠ k) : (x, w) ∈ setAttr attrs k v := by
  unfold setAttr
  split
  · have := List.mem_map_of_mem (fun p => if p.1 == k then (k, v) else p) hx
    simpa [show ((x, w).1 == k) = false by simpa using hne] using this
  · exact List.mem_append_left _ hx

theorem setAttr_key_unique (attrs : List (String × String)) (k v w : String)
    (h : (k, w) ∈ setAttr attrs k v) : w = v := by
  unfold setAttr at h
  split at h
  case isTrue hany =>
    obtain ⟨p, hp, hpe⟩ := List.mem_map.mp h
    by_cases hpk : (p.1 == k) = true
    · rw [if_pos hpk] at hpe
      injection hpe with h1 h2
      exact h2.symm
    · rw [if_neg hpk] at hpe
      exact absurd (by simp [hpe]) hpk
  case isFalse hany =>
    rcases List.mem_append.mp h with hmem | hmem
    · exact absurd (List.any_eq_true.mpr ⟨(k, w), hmem, by simp⟩) hany
    · simpa using List.mem_singleton.mp hmem

theorem transformAttrs_eq_foldl (attrs : List (String × String)) (name : String) :
    transformAttrs attrs name
      = removedAttrNames.foldl removeAttr (setAttr attrs "id" name) := rfl

theorem mem_foldl_removeAttr (ks : List String) :
    ∀ (a : List (String × String)) (k v : String),
      ((k, v) ∈ ks.foldl removeAttr a ↔ (k, v) ∈ a ∧ k ∉ ks) := by
  induction ks with
  | nil => intro a k v; simp
  | cons r rest ih =>
    intro a k v
    rw [List.foldl_cons, ih, mem_removeAttr]
    simp [List.mem_cons]
    tauto

/-- **C2**: on a document whose pre-order `svg` search succeeds, the
normalizer outputs the trimmed serialization of a `symbol` element keeping
the original children; its attributes hold `id = IconName` (and no other
`id`), none of the five stripped names, every other original attribute, and
nothing new. -/
theorem normalizer_spec (file : String) (doc : List SvgNode)
    (attrs : List (String × String)) (children : List SvgNode)
    (h : findSvgIn doc = some (attrs, children)) :
    normalizeSymbol file doc
        = some (jsTrim (renderNode (SvgNode.element "symbol"
            (transformAttrs attrs (iconName file)) children)))
    ∧ ("id", iconName file) ∈ transformAttrs attrs (iconName file)
    ∧ (∀ v, ("id", v) ∈ transformAttrs attrs (iconName file) → v = iconName file)
    ∧ (∀ k v, k ∈ removedAttrNames → (k, v) ∉ transformAttrs attrs (iconName file))
    ∧ (∀ k v, (k, v) ∈ attrs → k ∉ removedAttrNames → k ≠ "id" →
        (k, v) ∈ transformAttrs attrs (iconName file))
    ∧ (∀ k v, (k, v) ∈ transformAttrs attrs (iconName file) →
        k = "id" ∨ (k, v) ∈ attrs) := by
  refine ⟨by simp [normalizeSymbol, h], ?_, ?_, ?_, ?_, ?_⟩
  · rw [transformAttrs_eq_foldl, mem_foldl_removeAttr]
    exact ⟨mem_setAttr_self attrs "id" (iconName file), by decide⟩
  · intro v hv
    rw [transformAttrs_eq_foldl, mem_foldl_removeAttr] at hv
    exact setAttr_key_unique attrs "id" (iconName file) v hv.1
  · intro k v hk hmem
    rw [transformAttrs_eq_foldl, mem_foldl_removeAttr] at hmem
    exact hmem.2 hk
  · intro k v hmem hk hid
    rw [transformAttrs_eq_foldl, mem_foldl_removeAttr]
    exact ⟨mem_setAttr_of_mem_ne attrs "id" (iconName file) k v hmem hid, hk⟩
  · intro k v hmem
    rw [transformAttrs_eq_foldl, mem_foldl_removeAttr] at hmem
    rcases mem_setAttr_elim attrs "id" (iconName file) k v hmem.1 with h | h
    · exact Or.inr h
    · injection h with h1 h2
      exact Or.inl h1

def doc2 : List SvgNode :=
  [SvgNode.element "svg"
    [("xmlns", "http://www.w3.org/2000/svg"), ("viewBox", "0 0 24 24"), ("width", "24")]
    [SvgNode.element "path" [("d", "M0 0h24")] []]]

def attrs2 : List (String × String) :=
  [("xmlns", "http://www.w3.org/2000/svg"), ("viewBox", "0 0 24 24"), ("width", "24")]

def children2 : List SvgNode := [SvgNode.element "path" [("d", "M0 0h24")] []]

theorem normalizer_spec_witness :
    normalizeSymbol "camera.svg" doc2
        = some (jsTrim (renderNode (SvgNode.element "symbol"
            (transformAttrs attrs2 (iconName "camera.svg")) children2)))
    ∧ ("id", iconName "camera.svg") ∈ transformAttrs attrs2 (iconName "camera.svg")
    ∧ (∀ v, ("id", v) ∈ transformAttrs attrs2 (iconName "camera.svg") →
        v = iconName "camera.svg")
    ∧ (∀ k v, k ∈ removedAttrNames →
        (k, v) ∉ transformAttrs attrs2 (iconName "camera.svg"))
    ∧ (∀ k v, (k, v) ∈ attrs2 → k ∉ removedAttrNames → k ≠ "id" →
        (k, v) ∈ transformAttrs attrs2 (iconName "camera.svg"))
    ∧ (∀ k v, (k, v) ∈ transformAttrs attrs2 (iconName "camera.svg") →
        k = "id" ∨ (k, v) ∈ attrs2) :=
  normalizer_spec "camera.svg" doc2 attrs2 children2 rfl

/-! ## Claim C6: sprite document layout -/

theorem joinWith_cons (sep a : String) (l : List String) (h : l ≠ []) :
    joinWith sep (a :: l) = a ++ sep ++ joinWith sep l := by
  cases l with
  | nil => exact absurd rfl h
  | cons b t => rfl

theorem joinWith_append (sep : String) (l₁ l₂ : List String) (h1 : l₁ ≠ [])
    (h2 : l₂ ≠ []) :
    joinWith sep (l₁ ++ l₂) = joinWith sep l₁ ++ sep ++ joinWith sep l₂ := by
  induction l₁ with
  | nil => exact absurd rfl h1
  | cons a t ih =>
    cases t with
    | nil =>
      rw [List.singleton_append, joinWith_cons sep a l₂ h2]
      rfl
    | cons b t2 =>
      rw [List.cons_append, joinWith_cons sep a ((b :: t2) ++ l₂) (by simp),
        ih (by simp), joinWith_cons sep a (b :: t2) (by simp)]
      simp [String.append_assoc]

/-- **C6**: with the optimizer disabled, the assembled sprite document is
exactly the XML declaration line, the generated-file comment line, the root
`svg` element with both namespaces and zero size, a `defs` block holding all
symbol fragments in input order, the closing tags, and a trailing newline,
joined by newlines. -/
theorem sprite_assembly_layout (env : BuildEnv) (symbols : List String)
    (hopt : env.shouldOptimize = false)
    (hsym : env.files.mapM (fun f => normalizeSymbol f (env.readParse f)) = some symbols)
    (hne : symbols ≠ []) :
    spriteContent env = some
      (xmlDeclLine ++ "\n" ++ generatedCommentLine ++ "\n" ++ svgOpenLine ++ "\n"
        ++ "<defs>" ++ "\n" ++ joinWith "\n" symbols ++ "\n" ++ "</defs>" ++ "\n"
        ++ "</svg>" ++ "\n") := by
  unfold spriteContent
  rw [hsym, Option.map_some']
  simp only [hopt, if_neg Bool.false_ne_true]
  congr 1
  unfold assembleSprite
  have hco : ([xmlDeclLine, generatedCommentLine, svgOpenLine, "<defs>"]
        ++ symbols ++ ["</defs>", "</svg>", ""])
      = xmlDeclLine :: generatedCommentLine :: svgOpenLine :: "<defs>"
        :: (symbols ++ ["</defs>", "</svg>", ""]) := by simp
  rw [hco, joinWith_cons _ _ _ (by simp), joinWith_cons _ _ _ (by simp),
    joinWith_cons _ _ _ (by simp), joinWith_cons _ _ _ (by simp),
    joinWith_append "\n" symbols ["</defs>", "</svg>", ""] hne (by simp)]
  have htail : joinWith "\n" ["</defs>", "</svg>", ""] = "</defs>" ++ "\n" ++ "</svg>" ++ "\n" := by
    decide
  rw [htail]
  apply String.ext
  simp [String.data_append, List.append_assoc]

def env6 : BuildEnv :=
  ⟨["a.svg"], fun _ => [SvgNode.element "svg" [("viewBox", "0 0 1 1")] []],
    "out", "out", false, id⟩

theorem sprite_assembly_layout_witness :
    spriteContent env6 = some
      (xmlDeclLine ++ "\n" ++ generatedCommentLine ++ "\n" ++ svgOpenLine ++ "\n"
        ++ "<defs>" ++ "\n"
        ++ joinWith "\n" ["<symbol viewBox=\"0 0 1 1\" id=\"a\"></symbol>"] ++ "\n"
        ++ "</defs>" ++ "\n" ++ "</svg>" ++ "\n") :=
  sprite_assembly_layout env6 ["<symbol viewBox=\"0 0 1 1\" id=\"a\"></symbol>"]
    rfl (by decide) (by decide)

/-! ## Claim C7: manifest layout -/

/-- Observer for stating line structure: split a character list at every
newline (the separators are consumed; `n` newlines yield `n + 1` pieces). -/
def splitNl : List Char → List (List Char)
  | [] => [[]]
  | c :: rest =>
      if c = '\n' then [] :: splitNl rest
      else (c :: (splitNl rest).headD []) :: (splitNl rest).tail

theorem splitNl_ne_nil (s : List Char) : splitNl s ≠ [] := by
  cases s with
  | nil => simp [splitNl]
  | cons c rest =>
    unfold splitNl
    split <;> simp

theorem splitNl_eq_cons (s : List Char) :
    splitNl s = (splitNl s).headD [] :: (splitNl s).tail := by
  cases h : splitNl s with
  | nil => exact absurd h (splitNl_ne_nil s)
  | cons p ps => rfl

theorem splitNl_cons (c : Char) (z : List Char) :
    splitNl (c :: z) = if c = '\n' then [] :: splitNl z
      else (c :: (splitNl z).headD []) :: (splitNl z).tail := rfl

theorem splitNl_append_no_newline (xs ys : List Char) (h : '\n' ∉ xs) :
    splitNl (xs ++ ys)
      = (xs ++ (splitNl ys).headD []) :: (splitNl ys).tail := by
  induction xs with
  | nil => simpa using splitNl_eq_cons ys
  | cons c t ih =>
    have hc : c ≠ '\n' := fun e => h (e ▸ List.mem_cons_self c t)
    have ht : '\n' ∉ t := fun e => h (List.mem_cons_of_mem c e)
    rw [List.cons_append, splitNl_cons, if_neg hc, ih ht]
    simp

theorem splitNl_append_newline (xs ys : List Char) (h : '\n' ∉ xs) :
    splitNl (xs ++ '\n' :: ys) = xs :: splitNl ys := by
  rw [splitNl_append_no_newline xs ('\n' :: ys) h, splitNl_cons, if_pos rfl]
  simp

theorem hexDigit_ne_newline (n : Nat) (h : n < 16) : hexDigit n ≠ '\n' := by
  interval_cases n <;> decide

theorem newline_not_mem_escape (c : Char) : '\n' ∉ escapeJsonChar c := by
  unfold escapeJsonChar
  by_cases h1 : c = '"'
  · rw [if_pos h1]; decide
  rw [if_neg h1]
  by_cases h2 : c = '\\'
  · rw [if_pos h2]; decide
  rw [if_neg h2]
  by_cases h3 : c = '\x08'
  · rw [if_pos h3]; decide
  rw [if_neg h3]
  by_cases h4 : c = '\x0c'
  · rw [if_pos h4]; decide
  rw [if_neg h4]
  by_cases h5 : c = '\n'
  · rw [if_pos h5]; decide
  rw [if_neg h5]
  by_cases h6 : c = '\r'
  · rw [if_pos h6]; decide
  rw [if_neg h6]
  by_cases h7 : c = '\t'
  · rw [if_pos h7]; decide
  rw [if_neg h7]
  by_cases h8 : c.toNat < 0x20
  · rw [if_pos h8]
    intro hmem
    have hdiv : c.toNat / 16 < 16 := by omega
    have hmod : c.toNat % 16 < 16 := by omega
    simp only [List.mem_cons, List.not_mem_nil, or_false] at hmem
    rcases hmem with h | h | h | h | h | h
    · exact absurd h (by decide)
    · exact absurd h (by decide)
    · exact absurd h (by decide)
    · exact absurd h (by decide)
    · exact hexDigit_ne_newline _ hdiv h.symm
    · exact hexDigit_ne_newline _ hmod h.symm
  · rw [if_neg h8]
    intro hm
    rw [List.mem_singleton] at hm
    exact h5 hm.symm

theorem jsonStringify_no_newline (s : String) : '\n' ∉ (jsonStringify s).data := by
  intro h
  rcases List.mem_cons.mp h with h | h
  · exact absurd h (by decide)
  · rcases List.mem_append.mp h with h | h
    · obtain ⟨c, _, hc⟩ := List.mem_flatMap.mp h
      exact newline_not_mem_escape c hc
    · exact absurd (List.mem_singleton.mp h) (by decide)

theorem splitNl_of_no_newline (l : List Char) (h : '\n' ∉ l) : splitNl l = [l] := by
  induction l with
  | nil => rfl
  | cons c t ih =>
    have hc : c ≠ '\n' := fun e => h (e ▸ List.mem_cons_self c t)
    have ht : '\n' ∉ t := fun e => h (List.mem_cons_of_mem c e)
    rw [splitNl_cons, if_neg hc, ih ht]
    simp

theorem splitNl_manifest_body (n : String) (rest : List String) :
    splitNl (joinWith "\n\t| " ((n :: rest).map jsonStringify)).data
      = (jsonStringify n).data
          :: rest.map (fun m => '\t' :: '|' :: ' ' :: (jsonStringify m).data) := by
  induction rest generalizing n with
  | nil =>
    rw [List.map_cons, List.map_nil,
      show joinWith "\n\t| " [jsonStringify n] = jsonStringify n from rfl,
      splitNl_of_no_newline _ (jsonStringify_no_newline n)]
    simp
  | cons m rest2 ih =>
    rw [List.map_cons, joinWith_cons _ _ _ (by simp),
      String.data_append, String.data_append, List.append_assoc,
      show ("\n\t| ").data = '\n' :: ['\t', '|', ' '] from rfl, List.cons_append,
      splitNl_append_newline _ _ (jsonStringify_no_newline n),
      splitNl_append_no_newline ['\t', '|', ' '] _ (by decide), ih m]
    simp

theorem iconName_append_svg (f : String) (h : ".svg".data.isSuffixOf f.data = true) :
    iconName f ++ ".svg" = f := by
  unfold iconName
  rw [if_pos h]
  obtain ⟨t, ht⟩ := List.isSuffixOf_iff_suffix.mp h
  apply String.ext
  rw [String.data_append]
  show f.data.take (f.data.length - 4) ++ ".svg".data = f.data
  rw [← ht]
  have hlen : (t ++ ".svg".data).length - 4 = t.length := by simp
  rw [hlen, List.take_left]

/-- **C7**: the manifest lists exactly the icon names of the discovered files
— each the file name with exactly one trailing `.svg` removed — rendered as
quoted (JSON) string literals, one per line, in the discoverer's list order,
with no deduplication: splitting the rendered name block at newlines yields
one entry per file, in order. -/
theorem manifest_layout (files : List String) (g : String) (gs : List String)
    (hfiles : files = g :: gs)
    (hsvg : ∀ f ∈ files, ".svg".data.isSuffixOf f.data = true) :
    (∀ f ∈ files, iconName f ++ ".svg" = f)
    ∧ typeOutputContent (files.map iconName)
        = "// This file is generated by npm run build:icons\n  \n  export type IconName =\n  \t| "
          ++ joinWith "\n\t| " ((files.map iconName).map jsonStringify) ++ ";\n  "
    ∧ splitNl (joinWith "\n\t| " ((files.map iconName).map jsonStringify)).data
        = (jsonStringify (iconName g)).data
            :: gs.map (fun f => '\t' :: '|' :: ' ' :: (jsonStringify (iconName f)).data) := by
  refine ⟨fun f hf => iconName_append_svg f (hsvg f hf), rfl, ?_⟩
  subst hfiles
  rw [List.map_cons, splitNl_manifest_body (iconName g) (gs.map iconName)]
  simp [List.map_map]

theorem manifest_layout_witness :
    (∀ f ∈ ["b.svg", "a.svg"], iconName f ++ ".svg" = f)
    ∧ typeOutputContent ((["b.svg", "a.svg"]).map iconName)
        = "// This file is generated by npm run build:icons\n  \n  export type IconName =\n  \t| "
          ++ joinWith "\n\t| " (((["b.svg", "a.svg"]).map iconName).map jsonStringify) ++ ";\n  "
    ∧ splitNl (joinWith "\n\t| " (((["b.svg", "a.svg"]).map iconName).map jsonStringify)).data
        = (jsonStringify (iconName "b.svg")).data
            :: (["a.svg"]).map (fun f => '\t' :: '|' :: ' ' :: (jsonStringify (iconName f)).data) :=
  manifest_layout ["b.svg", "a.svg"] "b.svg" ["a.svg"] rfl (by decide)

/-! ## Claim C5: the sprite check against the build's own output -/

/-- **C5** (amended): for a nonempty file list whose icon names are nonempty
and quote-free, the sprite up-to-date predicate is false on the document the
assembler generated for that same list — and hence the short-circuit can
never fire off it — provided every occurrence of `id=` in that document is
immediately followed by a double quote, as the serializer's quoted attribute
rendering produces (the proviso excludes symbol bodies or attribute values
that themselves contain `id=<name>`). -/
theorem sprite_check_false_on_own_output (env : BuildEnv) (out : String)
    (hne : env.files ≠ [])
    (hq : ∀ n ∈ env.files.map iconName, n ≠ "" ∧ '"' ∉ n.data)
    (_hopt : env.shouldOptimize = false)
    (_hout : spriteContent env = some out)
    (hguard : ∀ i, i < out.data.length →
      "id=".data <+: out.data.drop i → ("id=" ++ "\"").data <+: out.data.drop i) :
    ((env.files.map iconName).all fun n => strIncludes out ("id=" ++ n)) = false
    ∧ (∀ fs0 : FS, fs0.readOrEmpty (spritePath env) = out →
        upToDateCheck env fs0 = false) := by
  obtain ⟨f, fsl, hf⟩ := List.exists_cons_of_ne_nil hne
  have hnmem : iconName f ∈ env.files.map iconName := by rw [hf]; simp
  obtain ⟨hne', hnq⟩ := hq (iconName f) hnmem
  have hfalse : strIncludes out ("id=" ++ iconName f) = false := by
    rw [strIncludes, decide_eq_false_iff_not]
    intro hinf
    obtain ⟨s, t, hst⟩ := hinf
    have hpre : ("id=" ++ iconName f).data <+: out.data.drop s.length := by
      rw [← hst, List.append_assoc, List.drop_left]
      exact List.prefix_append _ _
    by_cases hlt : s.length < out.data.length
    · have h3 : "id=".data <+: out.data.drop s.length := by
        obtain ⟨r, hr⟩ := hpre
        refine ⟨(iconName f).data ++ r, ?_⟩
        rw [← hr, String.data_append]
        simp [List.append_assoc]
      have h4 := hguard s.length hlt h3
      have hdne : (iconName f).data ≠ [] := by
        intro e
        exact hne' (String.ext e)
      have hlen : (("id=" ++ "\"").data).length ≤ (("id=" ++ iconName f).data).length := by
        rw [String.data_append, String.data_append]
        have : 1 ≤ (iconName f).data.length := by
          cases hdd : (iconName f).data with
          | nil => exact absurd hdd hdne
          | cons a l => simp
        simp only [List.length_append]
        have hq4 : ("\"").data.length = 1 := by decide
        rw [hq4]
        omega
      have h5 : ("id=" ++ "\"").data <+: ("id=" ++ iconName f).data :=
        List.prefix_of_prefix_length_le h4 hpre hlen
      rw [String.data_append, String.data_append] at h5
      have h6 : ("\"").data <+: (iconName f).data := by
        obtain ⟨r, hr⟩ := h5
        rw [List.append_assoc] at hr
        exact ⟨r, List.append_cancel_left hr⟩
      obtain ⟨r, hr⟩ := h6
      apply hnq
      rw [← hr]
      simp [show ("\"").data = ['"'] from rfl]
    · push_neg at hlt
      rw [List.drop_eq_nil_of_le hlt] at hpre
      have h7 := List.prefix_nil.mp hpre
      rw [String.data_append] at h7
      simp at h7
  have hallf : ((env.files.map iconName).all fun n => strIncludes out ("id=" ++ n)) = false := by
    cases hall : ((env.files.map iconName).all fun n => strIncludes out ("id=" ++ n)) with
    | false => rfl
    | true =>
      have := List.all_eq_true.mp hall (iconName f) hnmem
      rw [hfalse] at this
      exact absurd this (by decide)
  refine ⟨hallf, ?_⟩
  intro fs0 hread
  unfold upToDateCheck
  rw [hread, hallf, Bool.false_and]

def env5w : BuildEnv :=
  ⟨["a.svg"], fun _ => [SvgNode.element "svg" [("viewBox", "0 0 1 1")] []],
    "out", "out", false, id⟩

def out5w : String :=
  "<?xml version=\"1.0\" encoding=\"UTF-8\"?>\n<!-- This file is generated by npm run build:icons -->\n<svg xmlns=\"http://www.w3.org/2000/svg\" xmlns:xlink=\"http://www.w3.org/1999/xlink\" width=\"0\" height=\"0\">\n<defs>\n<symbol viewBox=\"0 0 1 1\" id=\"a\"></symbol>\n</defs>\n</svg>\n"

set_option maxRecDepth 40000 in
theorem sprite_check_false_on_own_output_witness :
    ((env5w.files.map iconName).all fun n => strIncludes out5w ("id=" ++ n)) = false
    ∧ (∀ fs0 : FS, fs0.readOrEmpty (spritePath env5w) = out5w →
        upToDateCheck env5w fs0 = false) :=
  sprite_check_false_on_own_output env5w out5w (by decide) (by decide) rfl
    (by decide) (by decide)

def env5x : BuildEnv :=
  ⟨["a.svg"], fun _ => [SvgNode.element "svg" [] [SvgNode.text "id=a"]],
    "out", "out", false, id⟩

def out5x : String :=
  "<?xml version=\"1.0\" encoding=\"UTF-8\"?>\n<!-- This file is generated by npm run build:icons -->\n<svg xmlns=\"http://www.w3.org/2000/svg\" xmlns:xlink=\"http://www.w3.org/1999/xlink\" width=\"0\" height=\"0\">\n<defs>\n<symbol id=\"a\">id=a</symbol>\n</defs>\n</svg>\n"

set_option maxRecDepth 40000 in
/-- Counterexample to C5 as stated: one input file `a.svg` whose SVG body is
the text `id=a`. The list is nonempty, the icon name `a` is quote-free, the
optimizer is off, yet the up-to-date predicate evaluates to `true` on the
sprite the assembler generates for this very list, because the body text
supplies the unquoted substring `id=a` that the quoted attribute rendering
never would. -/
theorem sprite_check_true_on_own_output_cex :
    env5x.files ≠ []
    ∧ (∀ n ∈ env5x.files.map iconName, n ≠ "" ∧ '"' ∉ n.data)
    ∧ env5x.shouldOptimize = false
    ∧ spriteContent env5x = some out5x
    ∧ ((env5x.files.map iconName).all fun n => strIncludes out5x ("id=" ++ n)) = true := by
  refine ⟨by decide, by decide, rfl, by decide, by decide⟩

/-! ## Claim C1: second run performs zero writes -/

/-- Helper: running `build` on a filesystem that already holds exactly the
sprite, manifest and README a successful build would produce (with the output
directory already created) either short-circuits or reaches all three writers
and none of them writes. -/
theorem build_on_built_output (env : BuildEnv) (g : FS) (out : String)
    (h0 : env.files ≠ [])
    (hsc : spriteContent env = some out)
    (hspr : g.readOrEmpty (spritePath env) = out)
    (htyp : g.readOrEmpty (typesPath env) = typeOutputContent (env.files.map iconName))
    (hrdm : g.readOrEmpty (readmePath env) = readmeContent)
    (hmem : env.outputDir ∈ g.dirs) :
    build env g = (BuildResult.upToDate, g)
    ∨ build env g = (BuildResult.built false false false, g) := by
  have hmk : g.mkdir env.outputDir = g := FS.mkdir_of_mem g env.outputDir hmem
  by_cases h2 : upToDateCheck env (g.mkdir env.outputDir) = true
  · left
    rw [build_of_check env g h0 h2, hmk]
  · right
    have h2f : upToDateCheck env (g.mkdir env.outputDir) = false := by
      cases hc : upToDateCheck env (g.mkdir env.outputDir)
      · rfl
      · exact absurd hc h2
    rw [build_of_generate env g out h0 h2f hsc]
    have e1 : writeIfChanged (g.mkdir env.outputDir) (spritePath env) out
        = (false, g) := by
      rw [hmk]; exact writeIfChanged_of_eq g _ out hspr
    rw [e1]
    have e2 : writeIfChanged ((false, g) : Bool × FS).2 (typesPath env)
        (typeOutputContent (env.files.map iconName)) = (false, g) :=
      writeIfChanged_of_eq g _ _ htyp
    rw [e2]
    have e3 : writeIfChanged ((false, g) : Bool × FS).2 (readmePath env)
        readmeContent = (false, g) :=
      writeIfChanged_of_eq g _ _ hrdm
    rw [e3]

/-- **C1**: for any environment and starting filesystem, a second build run on
the filesystem left by the first modifies nothing — and whenever the second
run reaches the writers (`built` outcome), `writeIfChanged` returned `false`
for the sprite file, the type manifest, and the README, because the
deterministically regenerated content equals what the first run wrote. -/
theorem build_idempotent_second_run (env : BuildEnv) (fs0 : FS) :
    (build env (build env fs0).2).2 = (build env fs0).2
    ∧ ∀ s t r, (build env (build env fs0).2).1 = BuildResult.built s t r →
        s = false ∧ t = false ∧ r = false := by
  by_cases h0 : env.files = []
  · have hb1 := build_of_empty env fs0 h0
    rw [hb1]
    show (build env fs0).2 = fs0
      ∧ ∀ s t r, (build env fs0).1 = BuildResult.built s t r →
          s = false ∧ t = false ∧ r = false
    rw [hb1]
    exact ⟨rfl, by intro s t r h; simp at h⟩
  · by_cases h1 : upToDateCheck env (fs0.mkdir env.outputDir) = true
    · have hb1 := build_of_check env fs0 h0 h1
      rw [hb1]
      show (build env (fs0.mkdir env.outputDir)).2 = fs0.mkdir env.outputDir
        ∧ ∀ s t r, (build env (fs0.mkdir env.outputDir)).1 = BuildResult.built s t r →
            s = false ∧ t = false ∧ r = false
      have h1b : upToDateCheck env ((fs0.mkdir env.outputDir).mkdir env.outputDir) = true := by
        rw [FS.mkdir_mkdir]; exact h1
      rw [build_of_check env (fs0.mkdir env.outputDir) h0 h1b, FS.mkdir_mkdir]
      exact ⟨rfl, by intro s t r h; simp at h⟩
    · have h1f : upToDateCheck env (fs0.mkdir env.outputDir) = false := by
        cases hc : upToDateCheck env (fs0.mkdir env.outputDir)
        · rfl
        · exact absurd hc h1
      cases hsc : spriteContent env with
      | none =>
        have hb1 := build_of_malformed env fs0 h0 h1f hsc
        rw [hb1]
        show (build env (fs0.mkdir env.outputDir)).2 = fs0.mkdir env.outputDir
          ∧ ∀ s t r, (build env (fs0.mkdir env.outputDir)).1 = BuildResult.built s t r →
              s = false ∧ t = false ∧ r = false
        have h1b : upToDateCheck env ((fs0.mkdir env.outputDir).mkdir env.outputDir) = false := by
          rw [FS.mkdir_mkdir]; exact h1f
        rw [build_of_malformed env (fs0.mkdir env.outputDir) h0 h1b hsc, FS.mkdir_mkdir]
        exact ⟨rfl, by intro s t r h; simp at h⟩
      | some out =>
        have hb1 := build_of_generate env fs0 out h0 h1f hsc
        set g := fs0.mkdir env.outputDir with hgdef
        set w1 := writeIfChanged g (spritePath env) out with hw1def
        set w2 := writeIfChanged w1.2 (typesPath env)
          (typeOutputContent (env.files.map iconName)) with hw2def
        set w3 := writeIfChanged w2.2 (readmePath env) readmeContent with hw3def
        have hspr : w3.2.readOrEmpty (spritePath env) = out := by
          rw [hw3def, writeIfChanged_readOrEmpty_ne _ _ _ _ (readmePath_ne_spritePath env).symm,
            hw2def, writeIfChanged_readOrEmpty_ne _ _ _ _ (typesPath_ne_spritePath env).symm,
            hw1def]
          exact writeIfChanged_readOrEmpty_self g _ out
        have htyp : w3.2.readOrEmpty (typesPath env)
            = typeOutputContent (env.files.map iconName) := by
          rw [hw3def, writeIfChanged_readOrEmpty_ne _ _ _ _ (readmePath_ne_typesPath env).symm,
            hw2def]
          exact writeIfChanged_readOrEmpty_self _ _ _
        have hrdm : w3.2.readOrEmpty (readmePath env) = readmeContent := by
          rw [hw3def]
          exact writeIfChanged_readOrEmpty_self _ _ _
        have hmem : env.outputDir ∈ w3.2.dirs := by
          rw [hw3def, writeIfChanged_dirs, hw2def, writeIfChanged_dirs, hw1def,
            writeIfChanged_dirs, hgdef]
          exact FS.mem_dirs_mkdir fs0 env.outputDir
        rcases build_on_built_output env w3.2 out h0 hsc hspr htyp hrdm hmem with h2 | h2
        · rw [hb1]
          show (build env w3.2).2 = w3.2
            ∧ ∀ s t r, (build env w3.2).1 = BuildResult.built s t r →
                s = false ∧ t = false ∧ r = false
          rw [h2]
          exact ⟨rfl, by intro s t r h; simp at h⟩
        · rw [hb1]
          show (build env w3.2).2 = w3.2
            ∧ ∀ s t r, (build env w3.2).1 = BuildResult.built s t r →
                s = false ∧ t = false ∧ r = false
          rw [h2]
          refine ⟨rfl, ?_⟩
          intro s t r h
          have h' : BuildResult.built false false false = BuildResult.built s t r := h
          injection h' with hs ht hr
          exact ⟨hs.symm, ht.symm, hr.symm⟩

def env1w : BuildEnv :=
  ⟨["a.svg"], fun _ => [SvgNode.element "svg" [("viewBox", "0 0 1 1")] []],
    "out", "out", false, id⟩

def fs1w : FS := ⟨[], []⟩

theorem build_idempotent_second_run_witness :
    (build env1w (build env1w fs1w).2).2 = (build env1w fs1w).2
    ∧ ∀ s t r, (build env1w (build env1w fs1w).2).1 = BuildResult.built s t r →
        s = false ∧ t = false ∧ r = false :=
  build_idempotent_second_run env1w fs1w
